import Mathlib

/-!
Shallow embedding of `src/MarkovModelClasses.py` (a discrete-time Markov cohort
model of HIV disease progression) together with theorems checking the
natural-language specification against it.

Python floats carrying times (`time_step + 0.5`) are embedded as rationals;
Python `None` becomes `Option.none`; a raised exception (ValueError,
IndexError, ZeroDivisionError, TypeError) is modelled as an `Option.none`
result of the enclosing computation.  The two external modules the source
imports (`InputData`, `SimPy`) are not under `src/`; their pieces are
modelled from the spec and marked as such in their doc comments.
-/

namespace MarkovModel

/-- Modelled from the spec: the `HealthState` enumeration of `InputData.py`
(a file of this repository that is not under `src/`): a finite densely-indexed
set of states, `HIV_DEATH` the designated terminal (absorbing) state and
`AIDS` the designated event state; the members used by the source are
`CD4_200to500` (the initial state), `AIDS` and `HIV_DEATH`, with Python enum
values `0, 1, 2, 3`. -/
inductive HealthState where
  | CD4_200to500
  | CD4_200
  | AIDS
  | HIV_DEATH
deriving DecidableEq, Repr

/-- The Python enum value (`HealthState.<member>.value`). -/
def HealthState.value : HealthState → ℕ
  | .CD4_200to500 => 0
  | .CD4_200 => 1
  | .AIDS => 2
  | .HIV_DEATH => 3

/-- The Python enum call `HealthState(i)`: the member of value `i`, and a
raised `ValueError` (modelled as `none`) for any other integer. -/
def HealthState.ofValue : ℕ → Option HealthState
  | 0 => some .CD4_200to500
  | 1 => some .CD4_200
  | 2 => some .AIDS
  | 3 => some .HIV_DEATH
  | _ => none

/-- Cumulative sums of a list, continuing from a running total `acc`. -/
def cumulativeFrom (acc : ℚ) : List ℚ → List ℚ
  | [] => []
  | p :: ps => (acc + p) :: cumulativeFrom (acc + p) ps

/-- Cumulative sums `c_0, …, c_{K-1}` of a probability vector. -/
def cumulative (p : List ℚ) : List ℚ := cumulativeFrom 0 p

/-- Index of the first entry `c` of the list with `u ≤ c`, if any. -/
def smallestIdxGe (u : ℚ) : List ℚ → Option ℕ
  | [] => none
  | c :: cs => if u ≤ c then some 0 else (smallestIdxGe u cs).map (· + 1)

/-- Modelled from the spec: `SimPy.RandomVariantGenerators.Empirical.sample`
(external library, not under `src/`), as the spec describes it: build the
cumulative sums; return the smallest index `j` with `c_j ≥ u`; if floating
error leaves `u` above `c_{K-1}`, clamp to `K−1`. -/
def empiricalSample (p : List ℚ) (u : ℚ) : ℕ :=
  match smallestIdxGe u (cumulative p) with
  | some j => j
  | none => p.length - 1

/-- The mutable attributes of `PatientStateMonitor`. -/
structure PatientStateMonitor where
  currentState : HealthState
  survivalTime : Option ℚ
  timeToAIDS : Option ℚ
  ifDevelopedAIDS : Bool
deriving DecidableEq, Repr

/-- `PatientStateMonitor.__init__`: current state `CD4_200to500`, survival
time and time to AIDS `None`, AIDS flag false. -/
def PatientStateMonitor.mk0 : PatientStateMonitor :=
  ⟨.CD4_200to500, none, none, false⟩

/-- `PatientStateMonitor.update(time_step, new_state)` of the source:
return unchanged if the current state is `HIV_DEATH`; otherwise set
`survivalTime` when the new state is `HIV_DEATH`, set the AIDS flag and
`timeToAIDS` on a transition into `AIDS`, and finally set the current
state to the new state. -/
def PatientStateMonitor.update (m : PatientStateMonitor) (time_step : ℕ)
    (new_state : HealthState) : PatientStateMonitor :=
  if m.currentState = .HIV_DEATH then m
  else
    let m1 : PatientStateMonitor :=
      if new_state = .HIV_DEATH then
        { m with survivalTime := some ((time_step : ℚ) + 1/2) }
      else m
    let m2 : PatientStateMonitor :=
      if m.currentState ≠ .AIDS ∧ new_state = .AIDS then
        { m1 with ifDevelopedAIDS := true,
                  timeToAIDS := some ((time_step : ℚ) + 1/2) }
      else m1
    { m2 with currentState := new_state }

/-- `PatientStateMonitor.get_if_alive`. -/
def PatientStateMonitor.get_if_alive (m : PatientStateMonitor) : Bool :=
  m.currentState ≠ .HIV_DEATH

/-- The per-patient mutable simulation state: the state monitor together
with the state of the patient's own random-number generator, embedded as
the count of uniform draws consumed so far from the patient's stream. -/
structure PatientSim where
  monitor : PatientStateMonitor
  rngIndex : ℕ
deriving DecidableEq, Repr

/-- The transition probability matrix: a list of rows, indexed by the
`value` of the current health state. -/
abbrev TransMatrix := List (List ℚ)

/-- One iteration of the body of the `while` loop in `Patient.simulate`:
look up the transition row of the current state (`IndexError` modelled as
`none`), sample a new state index from the empirical distribution using the
next uniform draw of the patient's stream, convert it to a `HealthState`,
update the monitor, and advance the stream. `u j` is the `j`-th uniform
draw of this patient's stream. -/
def stepPatient (matrix : TransMatrix) (u : ℕ → ℚ) (k : ℕ)
    (st : PatientSim) : Option PatientSim :=
  match matrix[st.monitor.currentState.value]? with
  | none => none
  | some trans_probs =>
    match HealthState.ofValue (empiricalSample trans_probs (u st.rngIndex)) with
    | none => none
    | some new_state =>
      some ⟨st.monitor.update k new_state, st.rngIndex + 1⟩

/-- The `while` loop of `Patient.simulate`, run over the list of remaining
time steps: at each step the loop condition `get_if_alive` is re-checked
and, when it fails, the loop exits with the state unchanged. -/
def simulateFrom (matrix : TransMatrix) (u : ℕ → ℚ) :
    PatientSim → List ℕ → Option PatientSim
  | st, [] => some st
  | st, k :: ks =>
    if st.monitor.get_if_alive then
      match stepPatient matrix u k st with
      | none => none
      | some st2 => simulateFrom matrix u st2 ks
    else some st

/-- `Patient.simulate(n_time_steps)` for a patient whose stream of uniform
draws is `u`: run the loop from a fresh monitor over time steps
`0, …, n_time_steps − 1`. -/
def patientSimulate (matrix : TransMatrix) (u : ℕ → ℚ) (n_time_steps : ℕ) :
    Option PatientSim :=
  simulateFrom matrix u ⟨PatientStateMonitor.mk0, 0⟩ (List.range n_time_steps)

/-- A `Patient` as constructed in `Patient.__init__`: its id is also the seed
of its random-number generator. -/
structure Patient where
  id : ℕ
deriving DecidableEq, Repr

/-- The patient list built in `Cohort.__init__` for cohort `id` and
population size `pop_size`: patient `i` gets id `id * pop_size + i`. -/
def cohortPatients (id pop_size : ℕ) : List Patient :=
  (List.range pop_size).map (fun i => ⟨id * pop_size + i⟩)

/-- The patient-simulation phase of `Cohort.simulate(n_time_steps)`:
each patient runs with its own stream, seeded by its id — `U s` is the
stream of uniform draws of the generator of seed `s`. -/
def cohortSimulate (id pop_size : ℕ) (matrix : TransMatrix)
    (U : ℕ → ℕ → ℚ) (n_time_steps : ℕ) : Option (List PatientSim) :=
  (cohortPatients id pop_size).mapM
    (fun p => patientSimulate matrix (U p.id) n_time_steps)

/-- Python's `sum(xs) / len(xs)`: a `ZeroDivisionError` on the empty list is
modelled as `none`. -/
def listMean (xs : List ℚ) : Option ℚ :=
  if xs.length = 0 then none else some (xs.sum / xs.length)

/-- Extract the values of a list of optionals, failing if any is `none`. -/
def allSome : List (Option ℚ) → Option (List ℚ)
  | [] => some []
  | none :: _ => none
  | some x :: xs => (allSome xs).map (x :: ·)

/-- Python's `sum(xs) / len(xs)` on a list that may contain `None` entries:
a `TypeError` from summing a `None` (or the `ZeroDivisionError` on the empty
list) is modelled as `none`. -/
def optListMean (xs : List (Option ℚ)) : Option ℚ :=
  (allSome xs).bind listMean

/-- The survival-curve value built in `extract_outcomes`. -/
structure PrevalencePath where
  initialSize : ℕ
  events : List (ℚ × ℤ)
deriving DecidableEq, Repr

/-- Modelled from the spec: `SimPy.SamplePathClasses.PrevalencePathBatchUpdate`
(external library, not under `src/`) as the spec describes the survival-curve
deliverable: starting from the initial population size, the recorded change
times sorted ascending, each paired with its increment. -/
def prevalencePathBatchUpdate (initial_size : ℕ) (times_of_changes : List ℚ)
    (increments : List ℤ) : PrevalencePath :=
  ⟨initial_size, (times_of_changes.insertionSort (· ≤ ·)).zip increments⟩

/-- The attributes of `CohortOutcomes` after `extract_outcomes` has run. -/
structure CohortOutcomes where
  survivalTimes : List ℚ
  timesToAIDS : List (Option ℚ)
  meanSurvivalTime : ℚ
  meanTimeToAIDS : ℚ
  nLivingPatients : PrevalencePath
deriving DecidableEq, Repr

/-- `CohortOutcomes.extract_outcomes(simulated_patients)`: append each set
`survivalTime` to `survivalTimes`, append `timeToAIDS` of each patient with
`ifDevelopedAIDS` to `timesToAIDS`, compute both means by unguarded division
by the lengths (a raised error modelled as `none`), and hand the survival
times with `-1` increments to the survival-curve constructor. -/
def extract_outcomes (simulated_patients : List PatientStateMonitor) :
    Option CohortOutcomes :=
  let survivalTimes := simulated_patients.filterMap (fun m => m.survivalTime)
  let timesToAIDS :=
    (simulated_patients.filter (fun m => m.ifDevelopedAIDS)).map
      (fun m => m.timeToAIDS)
  match listMean survivalTimes, optListMean timesToAIDS with
  | some m1, some m2 =>
      some ⟨survivalTimes, timesToAIDS, m1, m2,
        prevalencePathBatchUpdate simulated_patients.length survivalTimes
          (List.replicate survivalTimes.length (-1))⟩
  | _, _ => none

/-- All of `Cohort.simulate(n_time_steps)`: simulate every patient, then
extract the cohort outcomes from their monitors. -/
def runCohort (id pop_size : ℕ) (matrix : TransMatrix) (U : ℕ → ℕ → ℚ)
    (n_time_steps : ℕ) : Option CohortOutcomes :=
  (cohortSimulate id pop_size matrix U n_time_steps).bind
    (fun sims => extract_outcomes (sims.map (fun st => st.monitor)))

/-! ## Concrete configurations used to exercise the model -/

/-- The identity transition matrix on the four states: every state maps to
itself with probability 1, so no patient ever reaches `HIV_DEATH` or enters
`AIDS`. -/
def idMatrix : TransMatrix := [[1,0,0,0],[0,1,0,0],[0,0,1,0],[0,0,0,1]]

/-- A transition matrix in which every state moves to `HIV_DEATH` with
probability 1. -/
def deathMatrix : TransMatrix := [[0,0,0,1],[0,0,0,1],[0,0,0,1],[0,0,0,1]]

/-- A transition matrix that oscillates between `CD4_200to500` and `AIDS`:
the initial state moves to `AIDS` with probability 1 and `AIDS` moves back
with probability 1 (row-stochastic, so a legal configuration). -/
def oscMatrix : TransMatrix := [[0,0,1,0],[0,1,0,0],[1,0,0,0],[0,0,0,1]]

/-- A transition matrix sending the initial state to `AIDS` and `AIDS` to
`HIV_DEATH`, each with probability 1. -/
def aidsDeathMatrix : TransMatrix := [[0,0,1,0],[0,1,0,0],[0,0,0,1],[0,0,0,1]]

/-- A family of streams in which every uniform draw is `1/2`. -/
def Uhalf : ℕ → ℕ → ℚ := fun _ _ => 1/2

/-- A second presentation of the same family of streams (every draw equals
`1/2 + 0`), pointwise equal to `Uhalf` but not syntactically identical. -/
def UhalfB : ℕ → ℕ → ℚ := fun _ _ => 1/2 + 0

/-! ## Helper lemmas -/

/-- An absorbed monitor is frozen: `update` returns it unchanged. -/
theorem update_dead_eq (m : PatientStateMonitor) (t : ℕ) (s : HealthState)
    (h : m.currentState = .HIV_DEATH) : m.update t s = m := by
  simp [PatientStateMonitor.update, h]

/-- The simulation loop exits at once from an absorbed state, leaving the
whole patient state (monitor and stream position) unchanged. -/
theorem simulateFrom_dead_eq (matrix : TransMatrix) (u : ℕ → ℚ)
    (st : PatientSim) (ks : List ℕ)
    (h : st.monitor.currentState = .HIV_DEATH) :
    simulateFrom matrix u st ks = some st := by
  cases ks with
  | nil => rfl
  | cons k ks => simp [simulateFrom, PatientStateMonitor.get_if_alive, h]

/-- C1: on a monitor whose current state is not the terminal state,
`update(time_step, new_state)` sets `survivalTime` to `time_step + 0.5`
exactly when the new state is terminal, sets the AIDS flag and `timeToAIDS`
to `time_step + 0.5` exactly on a transition into `AIDS` (judged on the
current state before it is overwritten), leaves each field unchanged
otherwise, and finally sets the current state to the new state. -/
theorem claim1_update_contract (m : PatientStateMonitor) (t : ℕ)
    (s : HealthState) (h : m.currentState ≠ .HIV_DEATH) :
    ((m.update t s).survivalTime =
      if s = .HIV_DEATH then some ((t : ℚ) + 1/2) else m.survivalTime) ∧
    ((m.update t s).ifDevelopedAIDS =
      if m.currentState ≠ .AIDS ∧ s = .AIDS then true else m.ifDevelopedAIDS) ∧
    ((m.update t s).timeToAIDS =
      if m.currentState ≠ .AIDS ∧ s = .AIDS then some ((t : ℚ) + 1/2)
      else m.timeToAIDS) ∧
    (m.update t s).currentState = s := by
  by_cases h1 : s = HealthState.HIV_DEATH <;>
    by_cases h2 : m.currentState ≠ HealthState.AIDS ∧ s = HealthState.AIDS <;>
      simp [PatientStateMonitor.update, if_neg h, h1, h2]

/-- Witness for C1 at a concrete input: a fresh monitor receiving `AIDS` at
time step 4. -/
theorem claim1_update_contract_witness :
    (PatientStateMonitor.mk0.currentState ≠ HealthState.HIV_DEATH) ∧
    (((PatientStateMonitor.mk0.update 4 .AIDS).survivalTime =
      if HealthState.AIDS = .HIV_DEATH then some ((4 : ℚ) + 1/2)
      else PatientStateMonitor.mk0.survivalTime) ∧
    ((PatientStateMonitor.mk0.update 4 .AIDS).ifDevelopedAIDS =
      if PatientStateMonitor.mk0.currentState ≠ .AIDS ∧ HealthState.AIDS = .AIDS
      then true else PatientStateMonitor.mk0.ifDevelopedAIDS) ∧
    ((PatientStateMonitor.mk0.update 4 .AIDS).timeToAIDS =
      if PatientStateMonitor.mk0.currentState ≠ .AIDS ∧ HealthState.AIDS = .AIDS
      then some ((4 : ℚ) + 1/2) else PatientStateMonitor.mk0.timeToAIDS) ∧
    (PatientStateMonitor.mk0.update 4 .AIDS).currentState = .AIDS) :=
  ⟨by decide, claim1_update_contract PatientStateMonitor.mk0 4 .AIDS (by decide)⟩

/-- C2: once the current state is the terminal state, every further
`update` call is a no-op returning the monitor unchanged in all fields, and
the simulation loop exits immediately for any list of remaining time steps,
leaving the monitor and the random-stream position (so: consuming no
further randomness) unchanged. -/
theorem claim2_terminal_freezes (matrix : TransMatrix) (u : ℕ → ℚ)
    (m : PatientStateMonitor) (t : ℕ) (s : HealthState)
    (st : PatientSim) (ks : List ℕ) :
    (m.currentState = .HIV_DEATH → m.update t s = m) ∧
    (st.monitor.currentState = .HIV_DEATH →
      simulateFrom matrix u st ks = some st) :=
  ⟨fun h => update_dead_eq m t s h,
   fun h => simulateFrom_dead_eq matrix u st ks h⟩

/-- Witness for C2 at a concrete input: an absorbed monitor hit with a
further update, and an absorbed patient state run over two more steps. -/
theorem claim2_terminal_freezes_witness :
    ((⟨.HIV_DEATH, some (1/2), none, false⟩ : PatientStateMonitor).update 7 .AIDS =
      (⟨.HIV_DEATH, some (1/2), none, false⟩ : PatientStateMonitor)) ∧
    (simulateFrom deathMatrix (Uhalf 0)
      ⟨⟨.HIV_DEATH, some (1/2), none, false⟩, 1⟩ [3, 4] =
      some ⟨⟨.HIV_DEATH, some (1/2), none, false⟩, 1⟩) :=
  ⟨(claim2_terminal_freezes deathMatrix (Uhalf 0)
      ⟨.HIV_DEATH, some (1/2), none, false⟩ 7 .AIDS
      ⟨⟨.HIV_DEATH, some (1/2), none, false⟩, 1⟩ [3, 4]).1 rfl,
   (claim2_terminal_freezes deathMatrix (Uhalf 0)
      ⟨.HIV_DEATH, some (1/2), none, false⟩ 7 .AIDS
      ⟨⟨.HIV_DEATH, some (1/2), none, false⟩, 1⟩ [3, 4]).2 rfl⟩

/-- C8 counterexample: the starting state is not supplied by the caller —
`PatientStateMonitor.__init__` takes no such argument, and two simulations
with entirely different caller-supplied configurations (matrix, stream,
patient id) both start in the hard-coded state `CD4_200to500`. -/
theorem claim8_counterexample :
    PatientStateMonitor.mk0.currentState = HealthState.CD4_200to500 ∧
    patientSimulate deathMatrix (Uhalf 5) 0 =
      some ⟨⟨.CD4_200to500, none, none, false⟩, 0⟩ ∧
    patientSimulate idMatrix (Uhalf 9) 0 =
      some ⟨⟨.CD4_200to500, none, none, false⟩, 0⟩ :=
  ⟨rfl, rfl, rfl⟩

/-- C8 amended: the initial health state of every patient simulation is the
constant `CD4_200to500` fixed inside the monitor's constructor, whatever
transition matrix and stream the caller supplies. -/
theorem claim8_initial_state_constant (matrix : TransMatrix) (u : ℕ → ℚ) :
    patientSimulate matrix u 0 =
      some ⟨⟨HealthState.CD4_200to500, none, none, false⟩, 0⟩ ∧
    PatientStateMonitor.mk0.currentState = HealthState.CD4_200to500 :=
  ⟨rfl, rfl⟩

/-- The AIDS flag and the AIDS time are in sync on a monitor. -/
def flagSync (m : PatientStateMonitor) : Prop :=
  m.ifDevelopedAIDS = true ↔ m.timeToAIDS ≠ none

/-- One `update` call preserves the flag/time sync. -/
theorem flagSync_update (m : PatientStateMonitor) (t : ℕ) (s : HealthState)
    (h : flagSync m) : flagSync (m.update t s) := by
  unfold flagSync at h ⊢
  by_cases h0 : m.currentState = HealthState.HIV_DEATH
  · simp [update_dead_eq m t s h0, h]
  · by_cases h1 : s = HealthState.HIV_DEATH <;>
      by_cases h2 : m.currentState ≠ HealthState.AIDS ∧ s = HealthState.AIDS <;>
        simp [PatientStateMonitor.update, if_neg h0, h1, h2, h]

/-- Any sequence of `update` calls from a flag-synced monitor stays synced. -/
theorem flagSync_foldl (calls : List (ℕ × HealthState)) :
    ∀ m : PatientStateMonitor, flagSync m →
      flagSync (calls.foldl (fun m c => m.update c.1 c.2) m) := by
  induction calls with
  | nil => exact fun m h => h
  | cons c calls ih =>
      intro m h
      exact ih (m.update c.1 c.2) (flagSync_update m c.1 c.2 h)

/-- C10: after any sequence of `update` calls on a freshly constructed
monitor, the flag `ifDevelopedAIDS` is true exactly when `timeToAIDS` is
set: the two fields start as `false`/`None` and are only assigned
together. -/
theorem claim10_flag_iff_time (calls : List (ℕ × HealthState)) :
    (calls.foldl (fun m c => m.update c.1 c.2)
        PatientStateMonitor.mk0).ifDevelopedAIDS = true ↔
    (calls.foldl (fun m c => m.update c.1 c.2)
        PatientStateMonitor.mk0).timeToAIDS ≠ none :=
  flagSync_foldl calls PatientStateMonitor.mk0 (by simp [flagSync, PatientStateMonitor.mk0])

/-! ## The run invariant: where survival and AIDS times can come from -/

/-- Invariant of a patient state at the moment the next time step to be
executed is `t`: a set survival time comes from a death observed at an
earlier step (and the patient is now absorbed); a set AIDS time comes from
an earlier step; and the AIDS time precedes the survival time when both are
set. -/
def timesInv (t : ℕ) (m : PatientStateMonitor) : Prop :=
  (∀ s : ℚ, m.survivalTime = some s →
      m.currentState = .HIV_DEATH ∧ ∃ k : ℕ, k < t ∧ s = (k : ℚ) + 1/2) ∧
  (∀ a : ℚ, m.timeToAIDS = some a → ∃ j : ℕ, j < t ∧ a = (j : ℚ) + 1/2) ∧
  (∀ a s : ℚ, m.timeToAIDS = some a → m.survivalTime = some s → a < s)

theorem timesInv_mono {t t' : ℕ} {m : PatientStateMonitor} (h : t ≤ t')
    (hm : timesInv t m) : timesInv t' m := by
  obtain ⟨h1, h2, h3⟩ := hm
  refine ⟨fun s hs => ?_, fun a ha => ?_, h3⟩
  · obtain ⟨hc, k, hk, hv⟩ := h1 s hs
    exact ⟨hc, k, lt_of_lt_of_le hk h, hv⟩
  · obtain ⟨j, hj, hv⟩ := h2 a ha
    exact ⟨j, lt_of_lt_of_le hj h, hv⟩

/-- A live monitor has no survival time yet. -/
theorem timesInv_alive_none {t : ℕ} {m : PatientStateMonitor}
    (hm : timesInv t m) (h : m.currentState ≠ .HIV_DEATH) :
    m.survivalTime = none := by
  cases hs : m.survivalTime with
  | none => rfl
  | some s => exact absurd (hm.1 s hs).1 h

/-- `update` at the step `t` the invariant is indexed by preserves it,
reindexed to `t + 1`. -/
theorem timesInv_update (t : ℕ) (m : PatientStateMonitor) (s : HealthState)
    (hm : timesInv t m) : timesInv (t + 1) (m.update t s) := by
  by_cases h0 : m.currentState = HealthState.HIV_DEATH
  · have hmono := timesInv_mono (Nat.le_succ t) hm
    rwa [update_dead_eq m t s h0]
  · obtain ⟨h1, h2, h3⟩ := hm
    have hnone : m.survivalTime = none := timesInv_alive_none ⟨h1, h2, h3⟩ h0
    by_cases hd : s = HealthState.HIV_DEATH <;>
      by_cases ha : m.currentState ≠ HealthState.AIDS ∧ s = HealthState.AIDS
    · exact absurd hd (by simp [ha.2])
    · -- transition into death: survival time set now, AIDS time untouched
      refine ⟨?_, ?_, ?_⟩ <;>
        simp only [PatientStateMonitor.update, if_neg h0, if_pos hd, if_neg ha]
      · intro sv hsv
        simp only [Option.some_inj] at hsv
        exact ⟨hd, t, Nat.lt_succ_self t, hsv.symm⟩
      · intro a hA
        obtain ⟨j, hj, hv⟩ := h2 a hA
        exact ⟨j, Nat.lt_succ_of_lt hj, hv⟩
      · intro a sv hA hsv
        obtain ⟨j, hj, hv⟩ := h2 a hA
        simp only [Option.some_inj] at hsv
        rw [hv, ← hsv]
        have : (j : ℚ) < (t : ℚ) := by exact_mod_cast hj
        linarith
    · -- transition into AIDS: AIDS time set now, survival time stays unset
      refine ⟨?_, ?_, ?_⟩ <;>
        simp only [PatientStateMonitor.update, if_neg h0, if_neg hd, if_pos ha, hnone]
      · intro sv hsv
        simp at hsv
      · intro a hA
        simp only [Option.some_inj] at hA
        exact ⟨t, Nat.lt_succ_self t, hA.symm⟩
      · intro a sv _ hsv
        simp at hsv
    · -- neither death nor a transition into AIDS: times untouched
      refine ⟨?_, ?_, ?_⟩ <;>
        simp only [PatientStateMonitor.update, if_neg h0, if_neg hd, if_neg ha, hnone]
      · intro sv hsv
        simp at hsv
      · intro a hA
        obtain ⟨j, hj, hv⟩ := h2 a hA
        exact ⟨j, Nat.lt_succ_of_lt hj, hv⟩
      · intro a sv _ hsv
        simp at hsv

/-- Inversion for a successful loop step: the new patient state is an
`update` of the monitor with one more draw consumed. -/
theorem stepPatient_inv (matrix : TransMatrix) (u : ℕ → ℚ) (t : ℕ)
    (st st2 : PatientSim) (h : stepPatient matrix u t st = some st2) :
    ∃ s : HealthState,
      st2 = ⟨st.monitor.update t s, st.rngIndex + 1⟩ := by
  unfold stepPatient at h
  split at h
  · exact absurd h (by simp)
  · split at h
    · exact absurd h (by simp)
    · exact ⟨_, (Option.some_inj.mp h).symm⟩

/-- A successful loop step preserves the invariant. -/
theorem timesInv_stepPatient (matrix : TransMatrix) (u : ℕ → ℚ) (t : ℕ)
    (st st2 : PatientSim) (h : stepPatient matrix u t st = some st2)
    (hm : timesInv t st.monitor) : timesInv (t + 1) st2.monitor := by
  obtain ⟨s, rfl⟩ := stepPatient_inv matrix u t st st2 h
  exact timesInv_update t st.monitor s hm

/-- Running the loop over the time steps `t, t+1, …, t+c−1` carries the
invariant from index `t` to index `t+c`. -/
theorem timesInv_simulateFrom (matrix : TransMatrix) (u : ℕ → ℚ) :
    ∀ (c t : ℕ) (st st' : PatientSim), timesInv t st.monitor →
      simulateFrom matrix u st (List.range' t c) = some st' →
      timesInv (t + c) st'.monitor := by
  intro c
  induction c with
  | zero =>
      intro t st st' hm h
      simp only [List.range', simulateFrom, Option.some_inj] at h
      exact h ▸ hm
  | succ c ih =>
      intro t st st' hm h
      rw [List.range'_succ] at h
      by_cases halive : st.monitor.get_if_alive
      · rw [simulateFrom, if_pos halive] at h
        cases hstep : stepPatient matrix u t st with
        | none => rw [hstep] at h; exact absurd h (by simp)
        | some st2 =>
            rw [hstep] at h
            have h2 := timesInv_stepPatient matrix u t st st2 hstep hm
            have h3 := ih (t + 1) st2 st' h2 h
            rw [show t + (c + 1) = t + 1 + c by omega]
            exact h3
      · rw [simulateFrom, if_neg halive] at h
        simp only [Option.some_inj] at h
        exact h ▸ timesInv_mono (Nat.le_add_right t (c+1)) hm

/-- C4: whatever the matrix and the stream, if a patient simulated over
horizon `n` ends with its survival time set, that time is `k + 0.5` for
some time step `k` with `0 ≤ k ≤ n − 1`. -/
theorem claim4_survival_time_grid (matrix : TransMatrix) (u : ℕ → ℚ)
    (n : ℕ) (st' : PatientSim) (v : ℚ)
    (h : patientSimulate matrix u n = some st')
    (hv : st'.monitor.survivalTime = some v) :
    ∃ k : ℕ, k < n ∧ v = (k : ℚ) + 1/2 := by
  have h0 : timesInv 0 (⟨PatientStateMonitor.mk0, 0⟩ : PatientSim).monitor := by
    simp [timesInv, PatientStateMonitor.mk0]
  rw [patientSimulate, List.range_eq_range'] at h
  have hinv := timesInv_simulateFrom matrix u n 0 ⟨PatientStateMonitor.mk0, 0⟩ st' h0 h
  obtain ⟨_, k, hk, hkv⟩ := hinv.1 v hv
  exact ⟨k, by simpa using hk, hkv⟩

/-- Witness for C4 at a concrete input: with the everything-dies matrix and
the constant-1/2 stream, the horizon-10 run sets survival time `0.5`. -/
theorem claim4_survival_time_grid_witness :
    (patientSimulate deathMatrix (Uhalf 0) 10 =
      some ⟨⟨.HIV_DEATH, some (1/2), none, false⟩, 1⟩) ∧
    ∃ k : ℕ, k < 10 ∧ (1/2 : ℚ) = (k : ℚ) + 1/2 := by
  have hrun : patientSimulate deathMatrix (Uhalf 0) 10 =
      some ⟨⟨.HIV_DEATH, some (1/2), none, false⟩, 1⟩ := by
    norm_num +decide [patientSimulate, simulateFrom, stepPatient, empiricalSample,
      smallestIdxGe, cumulative, cumulativeFrom, PatientStateMonitor.update,
      PatientStateMonitor.mk0, PatientStateMonitor.get_if_alive, HealthState.value,
      HealthState.ofValue, deathMatrix, Uhalf, List.range_succ]
  exact ⟨hrun, claim4_survival_time_grid deathMatrix (Uhalf 0) 10
    ⟨⟨.HIV_DEATH, some (1/2), none, false⟩, 1⟩ (1/2) hrun rfl⟩

/-- C5 counterexample: with the legal (row-stochastic) oscillating matrix,
the single horizon-3 run assigns `timeToAIDS` twice: after step 0 (the run
over `[0]`) it holds `0.5`, and continuing the very same run over the
remaining steps `[1, 2]` ends with it holding `2.5` — so it is not set at
most once over the whole run. -/
theorem claim5_counterexample :
    List.range 3 = [0] ++ [1, 2] ∧
    simulateFrom oscMatrix (Uhalf 0) ⟨PatientStateMonitor.mk0, 0⟩ [0] =
      some ⟨⟨.AIDS, none, some (1/2), true⟩, 1⟩ ∧
    simulateFrom oscMatrix (Uhalf 0) ⟨⟨.AIDS, none, some (1/2), true⟩, 1⟩ [1, 2] =
      some ⟨⟨.AIDS, none, some (5/2), true⟩, 3⟩ ∧
    patientSimulate oscMatrix (Uhalf 0) 3 =
      some ⟨⟨.AIDS, none, some (5/2), true⟩, 3⟩ := by
  refine ⟨by decide, ?_, ?_, ?_⟩ <;>
    norm_num +decide [patientSimulate, simulateFrom, stepPatient, empiricalSample,
      smallestIdxGe, cumulative, cumulativeFrom, PatientStateMonitor.update,
      PatientStateMonitor.mk0, PatientStateMonitor.get_if_alive, HealthState.value,
      HealthState.ofValue, oscMatrix, Uhalf, List.range_succ]

/-- C5 amended: `timeToAIDS` may be reassigned (it is set again on every
transition into `AIDS` from a non-`AIDS` state), but whenever both
`timeToAIDS` and `survivalTime` are set at the end of a run,
`timeToAIDS ≤ survivalTime`. -/
theorem claim5_aids_before_death (matrix : TransMatrix) (u : ℕ → ℚ)
    (n : ℕ) (st' : PatientSim) (a s : ℚ)
    (h : patientSimulate matrix u n = some st')
    (ha : st'.monitor.timeToAIDS = some a)
    (hs : st'.monitor.survivalTime = some s) : a ≤ s := by
  have h0 : timesInv 0 (⟨PatientStateMonitor.mk0, 0⟩ : PatientSim).monitor := by
    simp [timesInv, PatientStateMonitor.mk0]
  rw [patientSimulate, List.range_eq_range'] at h
  have hinv := timesInv_simulateFrom matrix u n 0 ⟨PatientStateMonitor.mk0, 0⟩ st' h0 h
  exact le_of_lt (hinv.2.2 a s ha hs)

/-- Witness for C5 (amended) at a concrete input: the run through `AIDS`
into `HIV_DEATH` has `timeToAIDS = 0.5 ≤ 1.5 = survivalTime`. -/
theorem claim5_aids_before_death_witness :
    (patientSimulate aidsDeathMatrix (Uhalf 0) 2 =
      some ⟨⟨.HIV_DEATH, some (3/2), some (1/2), true⟩, 2⟩) ∧
    (1/2 : ℚ) ≤ 3/2 := by
  have hrun : patientSimulate aidsDeathMatrix (Uhalf 0) 2 =
      some ⟨⟨.HIV_DEATH, some (3/2), some (1/2), true⟩, 2⟩ := by
    norm_num +decide [patientSimulate, simulateFrom, stepPatient, empiricalSample,
      smallestIdxGe, cumulative, cumulativeFrom, PatientStateMonitor.update,
      PatientStateMonitor.mk0, PatientStateMonitor.get_if_alive, HealthState.value,
      HealthState.ofValue, aidsDeathMatrix, Uhalf, List.range_succ]
  exact ⟨hrun, claim5_aids_before_death aidsDeathMatrix (Uhalf 0) 2
    ⟨⟨.HIV_DEATH, some (3/2), some (1/2), true⟩, 2⟩ (1/2) (3/2) hrun rfl rfl⟩

/-- C3 (code bug): the mean computations are unguarded divisions. With the
identity matrix no patient ever reaches `HIV_DEATH`, the survival-times
collection is empty, and `extract_outcomes` hits `ZeroDivisionError`
(modelled as `none`) instead of any documented deterministic sentinel; the
same already happens on an empty patient list, and `listMean` on the empty
collection is exactly the guardless failing division. -/
theorem claim3_unguarded_empty_mean :
    runCohort 0 3 idMatrix Uhalf 5 = none ∧
    extract_outcomes [] = none ∧
    listMean [] = none := by
  refine ⟨?_, rfl, rfl⟩
  norm_num +decide [runCohort, cohortSimulate, cohortPatients, patientSimulate,
    simulateFrom, stepPatient, empiricalSample, smallestIdxGe, cumulative,
    cumulativeFrom, PatientStateMonitor.update, PatientStateMonitor.mk0,
    PatientStateMonitor.get_if_alive, HealthState.value, HealthState.ofValue,
    extract_outcomes, listMean, optListMean, allSome, idMatrix, Uhalf,
    List.range_succ, List.filterMap_cons, List.mapM_cons, List.mapM_nil]

/-- The loop result depends on the stream only through its values. -/
theorem simulateFrom_congr (matrix : TransMatrix) (u1 u2 : ℕ → ℚ)
    (hu : ∀ j, u1 j = u2 j) :
    ∀ (ks : List ℕ) (st : PatientSim),
      simulateFrom matrix u1 st ks = simulateFrom matrix u2 st ks := by
  intro ks
  induction ks with
  | nil => intro st; rfl
  | cons k ks ih =>
      intro st
      have hstep : stepPatient matrix u1 k st = stepPatient matrix u2 k st := by
        unfold stepPatient
        rw [hu st.rngIndex]
      simp only [simulateFrom, hstep]
      cases stepPatient matrix u2 k st with
      | none => rfl
      | some st2 => simp only [ih st2]

/-- The patient list result depends on `U` only at the patients' own
seeds. -/
theorem mapM_simulate_congr (matrix : TransMatrix) (n : ℕ) (U1 U2 : ℕ → ℕ → ℚ) :
    ∀ ps : List Patient, (∀ p ∈ ps, ∀ j, U1 p.id j = U2 p.id j) →
      ps.mapM (fun p => patientSimulate matrix (U1 p.id) n) =
      ps.mapM (fun p => patientSimulate matrix (U2 p.id) n) := by
  intro ps
  induction ps with
  | nil => intro _; rfl
  | cons p ps ih =>
      intro h
      have hp : patientSimulate matrix (U1 p.id) n =
          patientSimulate matrix (U2 p.id) n := by
        unfold patientSimulate
        exact simulateFrom_congr matrix (U1 p.id) (U2 p.id)
          (h p (List.mem_cons_self p ps)) (List.range n) ⟨PatientStateMonitor.mk0, 0⟩
      have hps := ih (fun q hq j => h q (List.mem_cons_of_mem p hq) j)
      simp only [List.mapM_cons, hp, hps]

/-- C6: two cohort simulations with the same cohort id, population size,
transition matrix and horizon, whose random-draw capability agrees on the
streams seeded by the cohort's own patient ids `c*N + i`, produce identical
patient trajectories and identical cohort outcomes (survival-time and
AIDS-time sequences included). -/
theorem claim6_determinism (c N : ℕ) (matrix : TransMatrix) (n : ℕ)
    (U1 U2 : ℕ → ℕ → ℚ)
    (h : ∀ i, i < N → ∀ j, U1 (c * N + i) j = U2 (c * N + i) j) :
    cohortSimulate c N matrix U1 n = cohortSimulate c N matrix U2 n ∧
    runCohort c N matrix U1 n = runCohort c N matrix U2 n := by
  have hsim : cohortSimulate c N matrix U1 n = cohortSimulate c N matrix U2 n := by
    unfold cohortSimulate
    apply mapM_simulate_congr
    intro p hp j
    obtain ⟨i, hi, rfl⟩ : ∃ i, i < N ∧ (⟨c * N + i⟩ : Patient) = p := by
      unfold cohortPatients at hp
      obtain ⟨i, hi, rfl⟩ := List.mem_map.mp hp
      exact ⟨i, List.mem_range.mp hi, rfl⟩
    exact h i hi j
  exact ⟨hsim, by unfold runCohort; rw [hsim]⟩

/-- Witness for C6 at a concrete input: the two syntactically different
presentations of the constant-1/2 draw capability give identical runs of a
3-patient cohort. -/
theorem claim6_determinism_witness :
    cohortSimulate 0 3 deathMatrix Uhalf 2 = cohortSimulate 0 3 deathMatrix UhalfB 2 ∧
    runCohort 0 3 deathMatrix Uhalf 2 = runCohort 0 3 deathMatrix UhalfB 2 :=
  claim6_determinism 0 3 deathMatrix 2 Uhalf UhalfB
    (fun i _ j => by norm_num [Uhalf, UhalfB])

/-- C7: whenever `extract_outcomes` completes on a patient list, the
survival-times collection is exactly the in-order selection of the set
survival times, the AIDS-times collection is exactly the in-order
`timeToAIDS` of the patients whose flag is set, and the survival curve
starts at the population size and carries one `−1` event per recorded
survival time, at the recorded times sorted ascending. -/
theorem claim7_aggregation (ms : List PatientStateMonitor) (o : CohortOutcomes)
    (h : extract_outcomes ms = some o) :
    o.survivalTimes = ms.filterMap (fun m => m.survivalTime) ∧
    o.timesToAIDS =
      (ms.filter (fun m => m.ifDevelopedAIDS)).map (fun m => m.timeToAIDS) ∧
    o.nLivingPatients.initialSize = ms.length ∧
    (o.nLivingPatients.events.map Prod.fst).Sorted (· ≤ ·) ∧
    (o.nLivingPatients.events.map Prod.fst).Perm o.survivalTimes ∧
    (∀ e ∈ o.nLivingPatients.events, e.2 = -1) ∧
    o.nLivingPatients.events.length = o.survivalTimes.length := by
  simp only [extract_outcomes] at h
  split at h
  case h_2 => exact absurd h (by simp)
  case h_1 m1 m2 heq1 heq2 =>
    rw [Option.some_inj] at h
    subst h
    have hlen : ((ms.filterMap (fun m => m.survivalTime)).insertionSort (· ≤ ·)).length =
        (List.replicate (ms.filterMap (fun m => m.survivalTime)).length (-1 : ℤ)).length := by
      rw [List.length_insertionSort, List.length_replicate]
    have hfst : (((ms.filterMap (fun m => m.survivalTime)).insertionSort (· ≤ ·)).zip
        (List.replicate (ms.filterMap (fun m => m.survivalTime)).length (-1 : ℤ))).map
          Prod.fst =
        (ms.filterMap (fun m => m.survivalTime)).insertionSort (· ≤ ·) :=
      List.map_fst_zip _ _ (le_of_eq hlen)
    refine ⟨rfl, rfl, rfl, ?_, ?_, ?_, ?_⟩
    · simpa [prevalencePathBatchUpdate, hfst] using
        List.sorted_insertionSort (· ≤ ·) (ms.filterMap (fun m => m.survivalTime))
    · simpa [prevalencePathBatchUpdate, hfst] using
        List.perm_insertionSort (· ≤ ·) (ms.filterMap (fun m => m.survivalTime))
    · intro e he
      simp only [prevalencePathBatchUpdate] at he
      exact List.eq_of_mem_replicate (List.of_mem_zip he).2
    · simp only [prevalencePathBatchUpdate]
      rw [List.length_zip, List.length_insertionSort, List.length_replicate,
        Nat.min_self]

/-- Witness for C7 at a concrete input: three monitors, two dead (at 2.5 and
1.5) and one AIDS case. -/
theorem claim7_aggregation_witness :
    (extract_outcomes
        [⟨.HIV_DEATH, some (5/2), some (1/2), true⟩,
         ⟨.CD4_200to500, none, none, false⟩,
         ⟨.HIV_DEATH, some (3/2), none, false⟩] =
      some ⟨[5/2, 3/2], [some (1/2)], 2, 1/2, ⟨3, [(3/2, -1), (5/2, -1)]⟩⟩) ∧
    (([5/2, 3/2] : List ℚ) =
      List.filterMap (fun m => m.survivalTime)
        ([⟨.HIV_DEATH, some (5/2), some (1/2), true⟩,
          ⟨.CD4_200to500, none, none, false⟩,
          ⟨.HIV_DEATH, some (3/2), none, false⟩] : List PatientStateMonitor) ∧
    ([some (1/2)] : List (Option ℚ)) =
      (List.filter (fun m => m.ifDevelopedAIDS)
        ([⟨.HIV_DEATH, some (5/2), some (1/2), true⟩,
          ⟨.CD4_200to500, none, none, false⟩,
          ⟨.HIV_DEATH, some (3/2), none, false⟩] : List PatientStateMonitor)).map
        (fun m => m.timeToAIDS) ∧
    (3 : ℕ) = 3 ∧
    (([(3/2, -1), (5/2, -1)] : List (ℚ × ℤ)).map Prod.fst).Sorted (· ≤ ·) ∧
    (([(3/2, -1), (5/2, -1)] : List (ℚ × ℤ)).map Prod.fst).Perm [5/2, 3/2] ∧
    (∀ e ∈ ([(3/2, -1), (5/2, -1)] : List (ℚ × ℤ)), e.2 = -1) ∧
    ([(3/2, -1), (5/2, -1)] : List (ℚ × ℤ)).length = ([5/2, 3/2] : List ℚ).length) := by
  have hrun : extract_outcomes
        [⟨.HIV_DEATH, some (5/2), some (1/2), true⟩,
         ⟨.CD4_200to500, none, none, false⟩,
         ⟨.HIV_DEATH, some (3/2), none, false⟩] =
      some ⟨[5/2, 3/2], [some (1/2)], 2, 1/2, ⟨3, [(3/2, -1), (5/2, -1)]⟩⟩ := by
    norm_num +decide [extract_outcomes, listMean, optListMean, allSome,
      prevalencePathBatchUpdate, List.insertionSort, List.orderedInsert,
      List.filterMap_cons, List.zip_cons_cons, List.replicate_succ,
      List.replicate_zero, List.zip_nil_left]
  exact ⟨hrun, claim7_aggregation _ _ hrun⟩

/-- C9: cohort `c` of size `N` has exactly `N` patients, patient `i` has id
`c*N + i`, and two same-size cohorts with different cohort ids share no
patient id. -/
theorem claim9_patient_ids (c c' N i : ℕ) (hi : i < N) (hcc : c ≠ c') :
    (cohortPatients c N).length = N ∧
    (cohortPatients c N)[i]? = some ⟨c * N + i⟩ ∧
    ∀ p ∈ cohortPatients c N, ∀ q ∈ cohortPatients c' N, p.id ≠ q.id := by
  have hmem : ∀ (d : ℕ) (p : Patient), p ∈ cohortPatients d N →
      ∃ a, a < N ∧ p.id = d * N + a := by
    intro d p hp
    obtain ⟨a, ha, rfl⟩ := List.mem_map.mp hp
    exact ⟨a, List.mem_range.mp ha, rfl⟩
  have hblock : ∀ d d' a b : ℕ, d < d' → a < N → d * N + a < d' * N + b := by
    intro d d' a b hdd ha
    calc d * N + a < d * N + N := by omega
      _ = (d + 1) * N := by ring
      _ ≤ d' * N := Nat.mul_le_mul_right N hdd
      _ ≤ d' * N + b := Nat.le_add_right _ _
  refine ⟨by simp [cohortPatients], ?_, ?_⟩
  · simp [cohortPatients, List.getElem?_map, List.getElem?_range, hi]
  · intro p hp q hq
    obtain ⟨a, ha, hpa⟩ := hmem c p hp
    obtain ⟨b, hb, hqb⟩ := hmem c' q hq
    rw [hpa, hqb]
    rcases Nat.lt_or_ge c c' with hlt | hge
    · exact Nat.ne_of_lt (hblock c c' a b hlt ha)
    · have hlt' : c' < c := Nat.lt_of_le_of_ne hge (Ne.symm hcc)
      exact (Nat.ne_of_lt (hblock c' c b a hlt' hb)).symm

/-- Witness for C9 at a concrete input: cohorts 2 and 3, size 3; patient 1
of cohort 2 has id 7 and no id is shared between the cohorts. -/
theorem claim9_patient_ids_witness :
    ((1 : ℕ) < 3 ∧ (2 : ℕ) ≠ 3) ∧
    ((cohortPatients 2 3).length = 3 ∧
    (cohortPatients 2 3)[1]? = some ⟨7⟩ ∧
    ∀ p ∈ cohortPatients 2 3, ∀ q ∈ cohortPatients 3 3, p.id ≠ q.id) :=
  ⟨by decide, claim9_patient_ids 2 3 3 1 (by decide) (by decide)⟩

end MarkovModel
